import Mathlib

/-!
Shallow embedding of the client-side media synchronization controller
(src/script.js) together with theorems checking the frozen claims about it.

The embedding keeps the source names where Lean allows it.  JavaScript
strings are modelled as Lean strings viewed as lists of characters; the
regular expressions used by the path validator are translated one by one
into executable Boolean search functions with the same semantics
(anchored or unanchored search, backtracking alternation, the dot
matching every character except a line terminator, ASCII case folding
for the case-insensitive flag).
-/

namespace MediaSync

/-! ## Character level utilities -/

/-- ASCII lower-casing of a single character, the fragment of the
JavaScript toLowerCase that the embedded comparisons use: every pattern
and extension list in the source is plain ASCII. -/
def asciiLower (c : Char) : Char :=
  if 'A' ≤ c ∧ c ≤ 'Z' then Char.ofNat (c.toNat + 32) else c

/-- Case-insensitive character comparison (ASCII folding), the
canonicalisation applied by a regular expression with the i flag. -/
def ciEq (a b : Char) : Bool := asciiLower a == asciiLower b

def isAsciiLetter (c : Char) : Bool :=
  decide (('a' ≤ c ∧ c ≤ 'z') ∨ ('A' ≤ c ∧ c ≤ 'Z'))

def isDigitChar (c : Char) : Bool := decide ('0' ≤ c ∧ c ≤ '9')

/-- The JavaScript whitespace class: the characters matched by the
regular expression class backslash-s and removed by String.prototype.trim
(WhiteSpace together with the line terminators). -/
def jsSpace (c : Char) : Bool :=
  decide (c.toNat ∈ ([0x09, 0x0A, 0x0B, 0x0C, 0x0D, 0x20, 0xA0, 0x1680,
    0x2028, 0x2029, 0x202F, 0x205F, 0x3000, 0xFEFF] : List Nat)) ||
  decide (0x2000 ≤ c.toNat ∧ c.toNat ≤ 0x200A)

/-- JavaScript line terminators; the regular-expression dot matches every
character except these. -/
def isLineTerm (c : Char) : Bool :=
  decide (c.toNat ∈ ([0x0A, 0x0D, 0x2028, 0x2029] : List Nat))

/-- A path separator character, backslash or forward slash. -/
def isSep (c : Char) : Bool := c == '\\' || c == '/'

/-- String.prototype.trim on a character list: drop JavaScript whitespace
from both ends. -/
def jsTrimList (l : List Char) : List Char :=
  ((l.dropWhile jsSpace).reverse.dropWhile jsSpace).reverse

def jsTrimStr (s : String) : String := String.mk (jsTrimList s.toList)

/-! ## Regular-expression search primitives

Each combinator follows textbook backtracking semantics, so the Boolean
functions built from them decide exactly the JavaScript regular
expressions they stand for. -/

/-- The fixed pattern is a case-insensitive prefix of the text. -/
def matchesCIAt : List Char → List Char → Bool
  | [], _ => true
  | _ :: _, [] => false
  | p :: ps, c :: cs => ciEq p c && matchesCIAt ps cs

/-- Unanchored search: the predicate holds at some suffix of the text
(including the empty suffix), exactly how test tries every start index. -/
def anywhere (p : List Char → Bool) : List Char → Bool
  | [] => p []
  | s@(_ :: cs) => p s || anywhere p cs

/-- Case-insensitive substring test, the semantics of an unanchored
literal pattern with the i flag. -/
def containsCI (pat : List Char) (s : List Char) : Bool :=
  anywhere (matchesCIAt pat) s

/-- Dot-star followed by a continuation: skip any run of non line
terminator characters, then the continuation must match. -/
def dotStarThenP (k : List Char → Bool) : List Char → Bool
  | [] => k []
  | s@(c :: cs) => k s || (!(isLineTerm c) && dotStarThenP k cs)

/-- One-or-more repetition of a character class followed by a
continuation, with backtracking over the repetition length. -/
def plusThen (p : Char → Bool) (k : List Char → Bool) : List Char → Bool
  | [] => false
  | c :: cs => p c && (k cs || plusThen p k cs)

/-! ## Media Classifier (getMediaTypeFromFilename, filterMediaFiles, getMimeType) -/

/-- filename.split with a dot separator: the segments of the character
list between dots, with empty segments kept, never an empty list. -/
def splitOnDot : List Char → List (List Char)
  | [] => [[]]
  | c :: cs =>
    match splitOnDot cs with
    | [] => [[]]
    | seg :: rest => if c == '.' then [] :: seg :: rest else (c :: seg) :: rest

/-- The extension a filename is classified by in the source:
filename.split by dot, pop (the last segment), toLowerCase.  A filename
with no dot yields the whole lowercased filename. -/
def jsExtOf (f : String) : String :=
  String.mk (((splitOnDot f.toList).getLastD []).map asciiLower)

/-- Whole-string ASCII lower casing, used to state the no-dot claim. -/
def asciiLowerStr (s : String) : String := String.mk (s.toList.map asciiLower)

/-- The video extension list of getMediaTypeFromFilename in the source. -/
def codeVideoExts : List String := ["mp4", "avi", "mkv", "mov", "webm"]

/-- The audio extension list of getMediaTypeFromFilename in the source. -/
def codeAudioExts : List String := ["mp3", "wav", "flac", "ogg", "aac"]

/-- The image extension list of getMediaTypeFromFilename in the source. -/
def codeImageExts : List String := ["jpg", "jpeg", "png", "gif", "bmp", "webp"]

/-- src/script.js getMediaTypeFromFilename: classify a filename by the
lowercased last-dot extension against the three inline extension lists. -/
def getMediaTypeFromFilename (filename : String) : String :=
  let extension := jsExtOf filename
  if extension ∈ codeVideoExts then "video"
  else if extension ∈ codeAudioExts then "audio"
  else if extension ∈ codeImageExts then "image"
  else "unknown"

/-- src/script.js filterMediaFiles: the mediaExtensions list (video,
audio, image) as written in the source. -/
def mediaExtensions : List String :=
  ["mp4", "avi", "mkv", "mov", "webm", "wmv", "flv", "m4v",
   "mp3", "wav", "flac", "ogg", "aac", "m4a", "wma",
   "jpg", "jpeg", "png", "gif", "bmp", "webp", "svg", "tiff"]

/-- A selected file as filterMediaFiles sees it: a name and a byte size. -/
structure JsFile where
  name : String
  size : Nat
deriving DecidableEq

/-- src/script.js filterMediaFiles: keep the files whose lowercased
last-dot extension is in mediaExtensions. -/
def filterMediaFiles (files : List JsFile) : List JsFile :=
  files.filter (fun file => decide (jsExtOf file.name ∈ mediaExtensions))

/-- src/script.js getMimeType: per-kind extension switch with a fixed
default per kind. -/
def getMimeType (mediaType filename : String) : String :=
  let extension := jsExtOf filename
  if mediaType = "video" then
    if extension = "mp4" then "video/mp4"
    else if extension = "avi" then "video/x-msvideo"
    else if extension = "mkv" then "video/x-matroska"
    else if extension = "mov" then "video/quicktime"
    else if extension = "webm" then "video/webm"
    else "video/mp4"
  else if mediaType = "audio" then
    if extension = "mp3" then "audio/mpeg"
    else if extension = "wav" then "audio/wav"
    else if extension = "flac" then "audio/flac"
    else if extension = "ogg" then "audio/ogg"
    else if extension = "aac" then "audio/aac"
    else "audio/mpeg"
  else if mediaType = "image" then
    if extension = "jpg" then "image/jpeg"
    else if extension = "jpeg" then "image/jpeg"
    else if extension = "png" then "image/png"
    else if extension = "gif" then "image/gif"
    else if extension = "bmp" then "image/bmp"
    else if extension = "webp" then "image/webp"
    else "image/jpeg"
  else "application/octet-stream"

/-! The documented extension sets of the specification (section 4.2 and
section 6), named separately so that claims comparing the code against
the documented sets can be stated.  These follow the words of the
specification, not the source. -/

/-- Documented video extension set from the specification. -/
def specVideoExts : List String :=
  ["mp4", "avi", "mkv", "mov", "webm", "wmv", "flv", "m4v"]

/-- Documented audio extension set from the specification. -/
def specAudioExts : List String :=
  ["mp3", "wav", "flac", "ogg", "aac", "m4a", "wma"]

/-- Documented image extension set from the specification. -/
def specImageExts : List String :=
  ["jpg", "jpeg", "png", "gif", "bmp", "webp", "svg", "tiff"]

/-! ## Path Validator (isValidDirectoryPath)

Each invalidPatterns and pathLikePatterns entry of the source is
translated into one Boolean function named by its position. -/

/-- Invalid pattern 1: unanchored case-insensitive search for digits,
whitespace, the word media, whitespace, the word file. -/
def invalidPat1 (l : List Char) : Bool :=
  anywhere (plusThen isDigitChar (plusThen jsSpace (fun u =>
    matchesCIAt ("media".toList) u &&
    plusThen jsSpace (fun v => matchesCIAt ("file".toList) v) (u.drop 5)))) l

/-- Invalid pattern 2: unanchored case-insensitive search for the word
file, then dot-star, then the word selected. -/
def invalidPat2 (l : List Char) : Bool :=
  anywhere (fun s =>
    matchesCIAt ("file".toList) s &&
    dotStarThenP (fun t => matchesCIAt ("selected".toList) t) (s.drop 4)) l

/-- Invalid pattern 3: unanchored case-insensitive search for the word
selected. -/
def invalidPat3 (l : List Char) : Bool := containsCI ("selected".toList) l

/-- Invalid pattern 4: the whole string holds no path separator
(anchored at both ends). -/
def invalidPat4 (l : List Char) : Bool := l.all (fun c => !(isSep c))

/-- The head of the text is a path separator. -/
def headIsSep : List Char → Bool
  | c :: _ => isSep c
  | [] => false

/-- Path pattern 1: anchored ASCII letter, colon, backslash. -/
def pathLike1 : List Char → Bool
  | a :: b :: c :: _ => isAsciiLetter a && b == ':' && c == '\\'
  | _ => false

/-- Path pattern 2: anchored ASCII letter, colon, then either separator. -/
def pathLike2 : List Char → Bool
  | a :: b :: c :: _ => isAsciiLetter a && b == ':' && isSep c
  | _ => false

/-- Path pattern 3: anchored slash followed by a character other than a
slash. -/
def pathLike3 : List Char → Bool
  | a :: b :: _ => a == '/' && !(b == '/')
  | _ => false

/-- Path pattern 4: anchored one or two dots followed by a separator,
with backtracking over the repetition count. -/
def pathLike4 : List Char → Bool
  | '.' :: c :: rest =>
    if isSep c then true
    else if c == '.' then headIsSep rest
    else false
  | _ => false

/-- Path pattern 5: anchored one-or-more non-separator characters
followed by a separator. -/
def pathLike5 (l : List Char) : Bool :=
  plusThen (fun c => !(isSep c)) headIsSep l

/-- Path pattern 6: the string ends with test_media (case-sensitive). -/
def pathLike6 (l : List Char) : Bool := ("test_media".toList).isSuffixOf l

/-- Path pattern 7: anchored dot-star, separator, dot-star, separator. -/
def pathLike7 (l : List Char) : Bool :=
  dotStarThenP (fun t => headIsSep t && dotStarThenP headIsSep (t.drop 1)) l

/-- A backslash followed by a dot-star running to the end of the string:
the tail of path patterns 8 and 9. -/
def bslashDotStarEnd : List Char → Bool
  | c :: rest => c == '\\' && rest.all (fun d => !(isLineTerm d))
  | [] => false

/-- Path pattern 8: anchored ASCII letter, colon, backslash, dot-star,
backslash, dot-star, end. -/
def pathLike8 : List Char → Bool
  | a :: b :: c :: rest =>
    isAsciiLetter a && b == ':' && c == '\\' && dotStarThenP bslashDotStarEnd rest
  | _ => false

/-- Path pattern 9: anchored literal C colon backslash Users backslash,
then dot-star, backslash, dot-star, end. -/
def pathLike9 (l : List Char) : Bool :=
  ("C:\\Users\\".toList).isPrefixOf l && dotStarThenP bslashDotStarEnd (l.drop 9)

/-- Path pattern 10: case-insensitive search for OneDrive. -/
def pathLike10 (l : List Char) : Bool := containsCI ("onedrive".toList) l

/-- Path pattern 11: case-insensitive search for Pictures. -/
def pathLike11 (l : List Char) : Bool := containsCI ("pictures".toList) l

/-- Path pattern 12: case-insensitive search for Documents. -/
def pathLike12 (l : List Char) : Bool := containsCI ("documents".toList) l

/-- Path pattern 13: case-insensitive search for Downloads. -/
def pathLike13 (l : List Char) : Bool := containsCI ("downloads".toList) l

/-- The string includes a backslash or includes a forward slash. -/
def hasSeparator (l : List Char) : Bool :=
  l.any (fun c => c == '\\') || l.any (fun c => c == '/')

/-- src/script.js isValidDirectoryPath: reject empty input, trim, reject
when any display-text pattern matches and the trimmed length is below
ten, then accept when any path-like pattern matches or the string has a
separator and length above three. -/
def isValidDirectoryPath (path : String) : Bool :=
  if path = "" then false
  else
    let p := jsTrimList path.toList
    if (invalidPat1 p || invalidPat2 p || invalidPat3 p || invalidPat4 p) &&
        decide (p.length < 10) then false
    else
      (pathLike1 p || pathLike2 p || pathLike3 p || pathLike4 p || pathLike5 p ||
       pathLike6 p || pathLike7 p || pathLike8 p || pathLike9 p || pathLike10 p ||
       pathLike11 p || pathLike12 p || pathLike13 p) ||
      (hasSeparator p && decide (p.length > 3))

/-! ## JavaScript values and objects

The normalized result of the Command Channel is a JavaScript object; it
is modelled as an association list whose later bindings override earlier
ones, matching object literal evaluation order. -/

/-- A JavaScript value as far as the embedded code inspects one. -/
inductive JVal where
  | jNull
  | jBool (b : Bool)
  | jNum (n : Int)
  | jStr (s : String)
  | jList (l : List JVal)
  | jObj (fields : List (String × JVal))

/-- JavaScript truthiness of a value: null, false, zero and the empty
string are falsy, arrays and objects are always truthy. -/
def truthy : JVal → Bool
  | .jNull => false
  | .jBool b => b
  | .jNum n => n != 0
  | .jStr s => s != ""
  | .jList _ => true
  | .jObj _ => true

/-- Property read on an object modelled as an association list: the last
binding of the key wins, matching object spread semantics. -/
def jsLookup (obj : List (String × JVal)) (k : String) : Option JVal :=
  (obj.reverse.find? (fun p => p.1 == k)).map Prod.snd

mutual

/-- String conversion of a value, as the Error constructor applies to a
non-string argument; array elements join with commas and null elements
join as empty. -/
def jsStringOf : JVal → String
  | .jNull => "null"
  | .jBool true => "true"
  | .jBool false => "false"
  | .jNum n => toString n
  | .jStr s => s
  | .jList l => jsStringArr l
  | .jObj _ => "[object Object]"

/-- Comma join of array elements for jsStringOf. -/
def jsStringArr : List JVal → String
  | [] => ""
  | [x] => (match x with | .jNull => "" | y => jsStringOf y)
  | x :: xs =>
    (match x with | .jNull => "" | y => jsStringOf y) ++ "," ++ jsStringArr xs

end

/-! ## Command Channel (callRustCommand) -/

/-- The parsed JSON reply of the backend endpoint: a success flag, an
optional data object and an optional error string, matching the response
shape of the external interface. -/
structure RustReply where
  success : Bool
  data : Option (List (String × JVal))
  error : Option String

/-- One round trip as observed by callRustCommand: either fetch itself
rejects, or a response arrives whose body fails to parse as JSON, or a
response arrives with a status code and a parsed body. -/
inductive BackendOutcome where
  | netFail (msg : String)
  | badBody (status : Nat) (msg : String)
  | reply (status : Nat) (body : RustReply)

/-- response.ok: the status code lies in the 2xx range. -/
def httpOk (status : Nat) : Bool := decide (200 ≤ status ∧ status ≤ 299)

/-- Truthiness of the raw error field, as tested by the source before it
throws the error. -/
def errTruthy : Option String → Bool
  | some s => s != ""
  | none => false

/-- The try block of callRustCommand: throw on a rejected fetch, throw
on an unparsable body, throw the HTTP error on a non-2xx status, throw
the error field when success is false and the error field is truthy,
otherwise return the object spreading the data fields over the success
flag. -/
def callBody : BackendOutcome → Except String (List (String × JVal))
  | .netFail msg => .error msg
  | .badBody status msg =>
    if !(httpOk status) then .error ("HTTP error! status: " ++ toString status)
    else .error msg
  | .reply status body =>
    if !(httpOk status) then .error ("HTTP error! status: " ++ toString status)
    else if !body.success && errTruthy body.error then .error (body.error.getD "")
    else .ok (("success", JVal.jBool body.success) :: body.data.getD [])

/-- The catch clause of callRustCommand wraps a thrown message into a
plain failure object, so the caller always receives an object and never
an exception. -/
def errObj (msg : String) : List (String × JVal) :=
  [("success", JVal.jBool false), ("error", JVal.jStr msg)]

/-- src/script.js callRustCommand: the try block normalized by the catch
clause. -/
def callRustCommand (o : BackendOutcome) : List (String × JVal) :=
  match callBody o with
  | .ok r => r
  | .error msg => errObj msg

/-- response.success as the controllers test it: truthiness of the
success property of the normalized result. -/
def resultSuccess (r : List (String × JVal)) : Bool :=
  match jsLookup r "success" with
  | some v => truthy v
  | none => false

/-- Error message recovery in the controllers: response.error when
truthy, else the per-operation generic message, converted to a string by
the Error constructor. -/
def errMsgStr (r : List (String × JVal)) (generic : String) : String :=
  match jsLookup r "error" with
  | some v => if truthy v then jsStringOf v else generic
  | none => generic

/-- response.files with a default empty list, as the controllers read
the listing from a successful reply. -/
def filesOf (r : List (String × JVal)) : JVal :=
  match jsLookup r "files" with
  | some v => if truthy v then v else JVal.jList []
  | none => JVal.jList []

/-! ## Host Controller state (startServer, stopServer) -/

/-- Log and notification severities used by the source. -/
inductive Severity where
  | info
  | success
  | warning
  | error
deriving DecidableEq

/-- A timestamped log line or a transient notification, modelled as the
message and its severity (timestamps are presentation). -/
structure LogEntry where
  msg : String
  sev : Severity
deriving DecidableEq

/-- The mutable application state owned by the controllers. -/
structure AppState where
  serverRunning : Bool
  clientConnected : Bool
  loadedFiles : JVal
  availableFiles : JVal
  connectedClients : JVal
  log : List LogEntry
  notifications : List LogEntry

/-- logMessage: append a severity-tagged record to the status log. -/
def logMessage (st : AppState) (m : String) (sv : Severity) : AppState :=
  { st with log := st.log ++ [⟨m, sv⟩] }

/-- showNotification: append a transient severity-tagged notification. -/
def showNotification (st : AppState) (m : String) (sv : Severity) : AppState :=
  { st with notifications := st.notifications ++ [⟨m, sv⟩] }

/-- The state built by the MediaSyncApp constructor. -/
def initialState : AppState :=
  { serverRunning := false
    clientConnected := false
    loadedFiles := JVal.jList []
    availableFiles := JVal.jList []
    connectedClients := JVal.jList []
    log := [⟨"Application initialized", Severity.info⟩]
    notifications := [] }

/-- The quote stripping applied to the directory input: remove one
leading and one trailing single or double quote character. -/
def stripQuotes (s : String) : String :=
  let l := s.toList
  let l1 := match l with
    | c :: rest => if c.toNat == 34 || c.toNat == 39 then rest else l
    | [] => []
  let l2 := match l1.reverse with
    | c :: rest => if c.toNat == 34 || c.toNat == 39 then rest.reverse else l1
    | [] => l1
  String.mk l2

/-- Decimal (or, after a 0x prefix, hexadecimal) digit value. -/
def digitValInBase (base : Nat) (c : Char) : Option Nat :=
  if decide ('0' ≤ c ∧ c ≤ '9') then
    if c.toNat - 48 < base then some (c.toNat - 48) else none
  else if decide (base = 16 ∧ 'a' ≤ c ∧ c ≤ 'f') then some (c.toNat - 87)
  else if decide (base = 16 ∧ 'A' ≤ c ∧ c ≤ 'F') then some (c.toNat - 55)
  else none

/-- Accumulate the longest digit prefix; none when no digit was read. -/
def parseDigits (base : Nat) : List Char → Option Nat → Option Nat
  | [], acc => acc
  | c :: cs, acc =>
    match digitValInBase base c with
    | some d => parseDigits base cs (some ((acc.getD 0) * base + d))
    | none => acc

/-- parseInt with no explicit radix: skip leading whitespace, read an
optional sign, detect a 0x prefix, then take the digit prefix; none
stands for NaN. -/
def jsParseInt (s : String) : Option Int :=
  let l := s.toList.dropWhile jsSpace
  let signed : Int × List Char :=
    match l with
    | '-' :: rest => (-1, rest)
    | '+' :: rest => (1, rest)
    | _ => (1, l)
  let based : Nat × List Char :=
    match signed.2 with
    | '0' :: c :: rest =>
      if c == 'x' || c == 'X' then (16, rest) else (10, signed.2)
    | _ => (10, signed.2)
  match parseDigits based.1 based.2 none with
  | some n => some (signed.1 * Int.ofNat n)
  | none => none

/-- Hexadecimal digit character for JSON control escapes. -/
def hexDigitChar (n : Nat) : Char :=
  if n < 10 then Char.ofNat (48 + n) else Char.ofNat (87 + n)

/-- JSON string escaping of one character. -/
def jsonEscapeChar (c : Char) : List Char :=
  if c == '"' then ['\\', '"']
  else if c == '\\' then ['\\', '\\']
  else if c.toNat == 8 then ['\\', 'b']
  else if c.toNat == 9 then ['\\', 't']
  else if c.toNat == 10 then ['\\', 'n']
  else if c.toNat == 12 then ['\\', 'f']
  else if c.toNat == 13 then ['\\', 'r']
  else if decide (c.toNat < 32) then
    ['\\', 'u', '0', '0', hexDigitChar (c.toNat / 16), hexDigitChar (c.toNat % 16)]
  else [c]

/-- JSON string escaping. -/
def jsonEscape (s : String) : String :=
  String.mk (s.toList.flatMap jsonEscapeChar)

/-- JSON.stringify of the start-server payload object; a NaN port
serializes as null. -/
def stringifyPayload (port directory : String) : String :=
  "\x7b\"port\":" ++
    (match jsParseInt port with
     | some n => toString n
     | none => "null") ++
  ",\"directory\":\"" ++ jsonEscape directory ++ "\"\x7d"

/-- A command submitted to the backend endpoint. -/
structure IssuedCmd where
  command : String
  params : List (String × JVal)

/-- The port parameter value: the parsed integer, or null for NaN. -/
def portParam (port : String) : JVal :=
  match jsParseInt port with
  | some n => JVal.jNum n
  | none => JVal.jNull

/-- src/script.js startServer: read and clean the directory input, emit
the three debug log lines, run the three local validations (each one
notifies and returns without issuing a command), otherwise issue
start-server and interpret the normalized result: on success set
serverRunning and replace loadedFiles with the returned listing, on
failure log and notify the error, leaving the state untouched. -/
def startServer (portInput dirInput : String) (o : BackendOutcome)
    (st0 : AppState) : AppState × Option IssuedCmd :=
  let directory := stripQuotes (jsTrimStr dirInput)
  let st := logMessage st0 ("Raw directory input: \"" ++ dirInput ++ "\"") .info
  let st := logMessage st ("Cleaned directory: \"" ++ directory ++ "\"") .info
  let st := logMessage st ("Directory length: " ++ toString directory.length) .info
  if portInput = "" then
    let st := showNotification st ("Please enter a port number") .error
    let st := logMessage st ("Missing port number") .error
    (st, none)
  else if directory = "" then
    let st := showNotification st ("Please enter a directory path or select files") .error
    let st := logMessage st ("Missing directory path") .error
    (st, none)
  else if !(isValidDirectoryPath directory) then
    let st := showNotification st
      ("Please enter a valid directory path (e.g., f:\\software\\test_media)") .error
    let st := logMessage st ("Invalid directory path: " ++ directory) .error
    let st := logMessage st
      ("Use \"Use Test Media\" button or enter a full path manually") .info
    (st, none)
  else
    let st := logMessage st
      ("Starting server on port " ++ portInput ++ " with directory: " ++ directory) .info
    let st := logMessage st
      ("Sending payload: " ++ stringifyPayload portInput directory) .info
    let cmd : IssuedCmd :=
      ⟨"start-server", [("port", portParam portInput), ("directory", JVal.jStr directory)]⟩
    let response := callRustCommand o
    if resultSuccess response then
      let st := { st with serverRunning := true, loadedFiles := filesOf response }
      let st := showNotification st ("Server started successfully") .success
      let st := logMessage st ("Server started successfully") .success
      (st, some cmd)
    else
      let m := errMsgStr response ("Failed to start server")
      let st := logMessage st ("Failed to start server: " ++ m) .error
      let st := showNotification st ("Failed to start server: " ++ m) .error
      (st, some cmd)

/-- src/script.js stopServer: issue stop-server with no parameters; on a
successful result clear serverRunning, loadedFiles and connectedClients
in bulk; on a failed result log and notify the error and leave the state
untouched. -/
def stopServer (o : BackendOutcome) (st0 : AppState) : AppState × Option IssuedCmd :=
  let st := logMessage st0 ("Stopping server...") .info
  let cmd : IssuedCmd := ⟨"stop-server", []⟩
  let response := callRustCommand o
  if resultSuccess response then
    let st := { st with
      serverRunning := false
      loadedFiles := JVal.jList []
      connectedClients := JVal.jList [] }
    let st := showNotification st ("Server stopped") .info
    let st := logMessage st ("Server stopped") .info
    (st, some cmd)
  else
    let m := errMsgStr response ("Failed to stop server")
    let st := logMessage st ("Failed to stop server: " ++ m) .error
    let st := showNotification st ("Failed to stop server: " ++ m) .error
    (st, some cmd)

/-- The hosting substate a stop resets: the active flag, the loaded file
listing and the connected peer listing. -/
def hostingView (st : AppState) : Bool × JVal × JVal :=
  (st.serverRunning, st.loadedFiles, st.connectedClients)

/-! ## Playback Controller (loadMediaInPlayer) -/

/-- The media payload a successful request-media delivers. -/
structure MediaPayload where
  filename : String
  data : String
  mediaType : String

/-- The handle to the decoded media resource; the model keeps the
encoded payload as the identity of the resource. -/
def blobUrl (data : String) : String := data

/-- The markup loadMediaInPlayer writes into the player container,
modelled structurally: a video or audio tag with its source URL, MIME
type and autoplay attribute, an image tag, the empty markup written for
an unrecognized kind, or the initial placeholder. -/
inductive PlayerView where
  | placeholder
  | videoTag (src : String) (mime : String) (autoplay : Bool)
  | audioTag (src : String) (mime : String) (autoplay : Bool)
  | imgTag (src : String) (alt : String)
  | emptyView

/-- src/script.js loadMediaInPlayer: decode the payload, build the
player markup for the media kind (video and audio carry the autoplay
attribute, an image renders directly) and enable the player controls in
every case.  The second component is the controls-enabled flag. -/
def loadMediaInPlayer (m : MediaPayload) : PlayerView × Bool :=
  if m.mediaType = "video" then
    (.videoTag (blobUrl m.data) (getMimeType m.mediaType m.filename) true, true)
  else if m.mediaType = "audio" then
    (.audioTag (blobUrl m.data) (getMimeType m.mediaType m.filename) true, true)
  else if m.mediaType = "image" then
    (.imgTag (blobUrl m.data) m.filename, true)
  else (.emptyView, true)

/-- The playback lifecycle states of the specification. -/
inductive PlaybackState where
  | Idle
  | Loaded
  | Playing
  | Paused
  | Stopped
deriving DecidableEq

/-- The playback state the freshly rendered player markup is in: a media
tag carrying the autoplay attribute starts playing at once, one without
it would stay merely loaded, an image is shown at once, and empty markup
or the placeholder holds no media. -/
def viewState : PlayerView → PlaybackState
  | .videoTag _ _ ap => if ap then .Playing else .Loaded
  | .audioTag _ _ ap => if ap then .Playing else .Loaded
  | .imgTag _ _ => .Playing
  | .placeholder => .Idle
  | .emptyView => .Idle

/-! ## Helper lemmas -/

/-- Splitting a dot-free character list yields the single whole segment. -/
lemma splitOnDot_eq_of_no_dot (l : List Char) (h : '.' ∉ l) : splitOnDot l = [l] := by
  induction l with
  | nil => rfl
  | cons c cs ih =>
    have hc : (c == '.') = false := by
      have : ¬ (c = '.') := fun hc => h (by simp [hc])
      simpa using this
    have hcs : '.' ∉ cs := fun hm => h (List.mem_cons_of_mem c hm)
    simp [splitOnDot, ih hcs, hc]

/-- A find? over a list ending in a matching element succeeds. -/
lemma find?_concat_isSome {α : Type} (l : List α) (x : α) (p : α → Bool)
    (hx : p x = true) : ((l ++ [x]).find? p).isSome = true := by
  induction l with
  | nil => simp [List.find?, hx]
  | cons a l ih =>
    rw [List.cons_append, List.find?]
    cases ha : p a
    · exact ih
    · rfl

/-- Reading a key from an object that binds it first always succeeds. -/
lemma jsLookup_cons_self (k : String) (v : JVal) (rest : List (String × JVal)) :
    (jsLookup ((k, v) :: rest) k).isSome = true := by
  have h := find?_concat_isSome rest.reverse (k, v) (fun p => p.1 == k) (by simp)
  simp only [jsLookup, List.reverse_cons]
  cases hf : List.find? (fun p : String × JVal => p.1 == k) (rest.reverse ++ [(k, v)]) with
  | none => rw [hf] at h; simp at h
  | some x => simp [hf]

/-! ## Claims -/

/-- Counterexample to claim C1: the documented video set contains wmv,
yet the classifier returns unknown for a wmv filename, because the
source lists of getMediaTypeFromFilename are smaller than the documented
sets. -/
theorem classify_wmv_unknown :
    getMediaTypeFromFilename ("movie.wmv") = "unknown" ∧
    getMediaTypeFromFilename ("movie.wmv") ≠ "video" ∧
    jsExtOf ("movie.wmv") ∈ specVideoExts := by
  refine ⟨rfl, ?_, ?_⟩ <;> decide

/-- Claim C1 (amended): classify returns the documented kind exactly for
the extension lists written in getMediaTypeFromFilename (video
mp4/avi/mkv/mov/webm, audio mp3/wav/flac/ogg/aac, image
jpg/jpeg/png/gif/bmp/webp) and unknown for every other extension,
including the remaining documented extensions wmv, flv, m4v, m4a, wma,
svg and tiff. -/
theorem classify_matches_code_sets (f : String) :
    (jsExtOf f ∈ codeVideoExts → getMediaTypeFromFilename f = "video") ∧
    (jsExtOf f ∈ codeAudioExts → getMediaTypeFromFilename f = "audio") ∧
    (jsExtOf f ∈ codeImageExts → getMediaTypeFromFilename f = "image") ∧
    (jsExtOf f ∉ codeVideoExts ++ codeAudioExts ++ codeImageExts →
      getMediaTypeFromFilename f = "unknown") := by
  refine ⟨?_, ?_, ?_, ?_⟩
  · intro h
    simp [getMediaTypeFromFilename, h]
  · intro h
    have hv : jsExtOf f ∉ codeVideoExts := by
      simp only [codeAudioExts, List.mem_cons, List.not_mem_nil, or_false] at h
      rcases h with h | h | h | h | h <;> rw [h] <;> decide
    simp [getMediaTypeFromFilename, h, hv]
  · intro h
    have hv : jsExtOf f ∉ codeVideoExts := by
      simp only [codeImageExts, List.mem_cons, List.not_mem_nil, or_false] at h
      rcases h with h | h | h | h | h | h <;> rw [h] <;> decide
    have ha : jsExtOf f ∉ codeAudioExts := by
      simp only [codeImageExts, List.mem_cons, List.not_mem_nil, or_false] at h
      rcases h with h | h | h | h | h | h <;> rw [h] <;> decide
    simp [getMediaTypeFromFilename, h, hv, ha]
  · intro h
    simp only [List.mem_append] at h
    push_neg at h
    simp [getMediaTypeFromFilename, h.1.1, h.1.2, h.2]

/-- Witness for claim C1: a concrete filename in each amended clause. -/
theorem classify_matches_code_sets_witness :
    getMediaTypeFromFilename ("clip.avi") = "video" ∧
    getMediaTypeFromFilename ("song.AAC") = "audio" ∧
    getMediaTypeFromFilename ("pic.webp") = "image" ∧
    getMediaTypeFromFilename ("doc.txt") = "unknown" :=
  ⟨(classify_matches_code_sets ("clip.avi")).1 (by decide),
   (classify_matches_code_sets ("song.AAC")).2.1 (by decide),
   (classify_matches_code_sets ("pic.webp")).2.2.1 (by decide),
   (classify_matches_code_sets ("doc.txt")).2.2.2 (by decide)⟩

/-- Claim C2: filterMediaFiles returns an order-preserving and
duplicate-preserving subsequence holding exactly the files whose
lowercased last-dot extension lies in the union of the three documented
extension sets. -/
theorem filterMediaFiles_spec (l : List JsFile) :
    (filterMediaFiles l).Sublist l ∧
    ∀ f : JsFile, (filterMediaFiles l).count f =
      if jsExtOf f.name ∈ specVideoExts ++ specAudioExts ++ specImageExts
      then l.count f else 0 := by
  have key : mediaExtensions = specVideoExts ++ specAudioExts ++ specImageExts := rfl
  refine ⟨List.filter_sublist l, ?_⟩
  intro f
  by_cases hf : jsExtOf f.name ∈ mediaExtensions
  · rw [if_pos (key ▸ hf)]
    exact List.count_filter (by simpa using hf)
  · rw [if_neg (fun hmem => hf (key ▸ hmem))]
    refine List.count_eq_zero.mpr (fun hmem => ?_)
    exact hf (of_decide_eq_true (List.mem_filter.mp hmem).2)

/-- Claim C3: the path validator returns the documented verdicts on the
five documented test vectors. -/
theorem isValidDirectoryPath_vectors :
    isValidDirectoryPath ("") = false ∧
    isValidDirectoryPath ("f:\\software\\test_media") = true ∧
    isValidDirectoryPath ("3 media files selected") = false ∧
    isValidDirectoryPath ("./media") = true ∧
    isValidDirectoryPath ("abc") = false := by
  refine ⟨rfl, rfl, rfl, rfl, rfl⟩

/-- Claim C10: for a filename with no dot both the classifier and the
filter use the whole lowercased filename as the extension, so the bare
filename mp4 classifies as video and survives the filter. -/
theorem no_dot_whole_name (f : String) (h : '.' ∉ f.toList) :
    jsExtOf f = asciiLowerStr f ∧
    getMediaTypeFromFilename ("mp4") = "video" ∧
    filterMediaFiles [⟨"mp4", 0⟩] = [⟨"mp4", 0⟩] := by
  refine ⟨?_, by decide, by decide⟩
  unfold jsExtOf asciiLowerStr
  rw [splitOnDot_eq_of_no_dot f.toList h]
  rfl

/-- Witness for claim C10 at the bare filename MP4. -/
theorem no_dot_whole_name_witness :
    jsExtOf ("MP4") = asciiLowerStr ("MP4") ∧
    getMediaTypeFromFilename ("mp4") = "video" ∧
    filterMediaFiles [⟨"mp4", 0⟩] = [⟨"mp4", 0⟩] :=
  no_dot_whole_name ("MP4") (by decide)

/-- Claim C4: every input whose trimmed form is shorter than ten
characters and contains the word selected case-insensitively is
rejected, even when it holds a separator or matches an accepted path
shape, because the display-text gate runs before the path-shape
acceptance. -/
theorem short_selected_rejected (s : String)
    (hlen : (jsTrimList s.toList).length < 10)
    (hsel : containsCI ("selected".toList) (jsTrimList s.toList) = true) :
    isValidDirectoryPath s = false := by
  by_cases hs : s = ""
  · simp [isValidDirectoryPath, hs]
  · have hsel3 : invalidPat3 (jsTrimList s.toList) = true := hsel
    unfold isValidDirectoryPath
    rw [if_neg hs]
    dsimp only
    split
    · rfl
    · rename_i hgate
      exact absurd (by rw [hsel3]; simpa using hlen) hgate

/-- Witness for claim C4: the nine-character input slash selected has a
separator and matches the anchored-slash path shape, yet is rejected. -/
theorem short_selected_rejected_witness :
    (jsTrimList ("/selected").toList).length < 10 ∧
    containsCI ("selected".toList) (jsTrimList ("/selected").toList) = true ∧
    pathLike3 (jsTrimList ("/selected").toList) = true ∧
    isValidDirectoryPath ("/selected") = false :=
  ⟨by decide, by decide, by decide,
    short_selected_rejected ("/selected") (by decide) (by decide)⟩

/-- Counterexample to claim C5: a parseable 2xx reply with success false
and no error field is normalized into a failure-tagged result that
carries neither an error field nor any generic message. -/
theorem send_err_without_message :
    resultSuccess (callRustCommand (.reply 200 ⟨false, some [], none⟩)) = false ∧
    jsLookup (callRustCommand (.reply 200 ⟨false, some [], none⟩)) ("error") = none :=
  ⟨rfl, rfl⟩

/-- Claim C5 (amended): callRustCommand never lets an exception escape
and always returns an object tagged by a success property.  A rejected
fetch yields the failure object with its message; an unparsable body
behind a 2xx status yields the failure object with its parse message,
while behind a non-2xx status the HTTP error message wins because the
ok check runs before the body parse; a non-2xx status with a parsed
body likewise yields the failure object with the HTTP error message; a
success-false reply with a non-empty error string yields the failure
object with exactly that error; a success-false reply whose error field
is missing or empty yields the data fields merged over success false
with no error message; a success-true reply yields the data fields
merged over success true. -/
theorem send_normalizes (o : BackendOutcome) :
    (jsLookup (callRustCommand o) ("success")).isSome = true ∧
    (∀ msg, o = .netFail msg → callRustCommand o = errObj msg) ∧
    (∀ status msg, o = .badBody status msg → httpOk status = false →
      callRustCommand o = errObj ("HTTP error! status: " ++ toString status)) ∧
    (∀ status msg, o = .badBody status msg → httpOk status = true →
      callRustCommand o = errObj msg) ∧
    (∀ status body, o = .reply status body → httpOk status = false →
      callRustCommand o = errObj ("HTTP error! status: " ++ toString status)) ∧
    (∀ status body, o = .reply status body → httpOk status = true →
      body.success = false → errTruthy body.error = true →
      callRustCommand o = errObj (body.error.getD "")) ∧
    (∀ status body, o = .reply status body → httpOk status = true →
      body.success = false → errTruthy body.error = false →
      callRustCommand o = ("success", JVal.jBool false) :: body.data.getD []) ∧
    (∀ status body, o = .reply status body → httpOk status = true →
      body.success = true →
      callRustCommand o = ("success", JVal.jBool true) :: body.data.getD []) := by
  refine ⟨?_, ?_, ?_, ?_, ?_, ?_, ?_, ?_⟩
  · rcases o with msg | ⟨status, msg⟩ | ⟨status, body⟩
    · exact jsLookup_cons_self _ _ _
    · cases h : httpOk status <;>
        simp only [callRustCommand, callBody, h, Bool.not_false, Bool.not_true,
          if_true, if_false, ite_true, ite_false] <;>
        exact jsLookup_cons_self _ _ _
    · rcases body with ⟨bs, bd, be⟩
      cases h : httpOk status <;> cases bs <;> cases he : errTruthy be <;>
        simp only [callRustCommand, callBody, h, he, Bool.not_false, Bool.not_true,
          Bool.true_and, Bool.false_and, if_true, if_false, ite_true, ite_false] <;>
        exact jsLookup_cons_self _ _ _
  · intro msg heq
    subst heq
    rfl
  · intro status msg heq hok
    subst heq
    simp [callRustCommand, callBody, hok]
  · intro status msg heq hok
    subst heq
    simp [callRustCommand, callBody, hok]
  · intro status body heq hok
    subst heq
    simp [callRustCommand, callBody, hok]
  · intro status body heq hok hsucc herr
    subst heq
    simp [callRustCommand, callBody, hok, hsucc, herr]
  · intro status body heq hok hsucc herr
    subst heq
    simp [callRustCommand, callBody, hok, hsucc, herr]
  · intro status body heq hok hsucc
    subst heq
    simp [callRustCommand, callBody, hok, hsucc]

/-- Witness for claim C5: a 404 transport response normalizes into the
documented HTTP failure object, and an unparsable body behind a 2xx
status normalizes into the failure object with its parse message. -/
theorem send_normalizes_witness :
    callRustCommand (.reply 404 ⟨true, none, none⟩) =
      errObj ("HTTP error! status: " ++ toString 404) ∧
    callRustCommand (.badBody 200 ("Unexpected end of JSON input")) =
      errObj ("Unexpected end of JSON input") :=
  ⟨(send_normalizes (.reply 404 ⟨true, none, none⟩)).2.2.2.2.1
      404 ⟨true, none, none⟩ rfl (by decide),
   (send_normalizes (.badBody 200 ("Unexpected end of JSON input"))).2.2.2.1
      200 ("Unexpected end of JSON input") rfl (by decide)⟩

/-- Claim C9: loading a payload of kind video, audio or image always
yields the Playing state, never a loaded-without-autoplay state, because
video and audio markup carries the autoplay attribute and an image is
shown at once. -/
theorem load_always_playing (m : MediaPayload)
    (h : m.mediaType = "video" ∨ m.mediaType = "audio" ∨ m.mediaType = "image") :
    viewState (loadMediaInPlayer m).1 = PlaybackState.Playing ∧
    viewState (loadMediaInPlayer m).1 ≠ PlaybackState.Loaded := by
  have hp : viewState (loadMediaInPlayer m).1 = PlaybackState.Playing := by
    rcases h with h | h | h <;> simp [loadMediaInPlayer, viewState, h]
  refine ⟨hp, ?_⟩
  rw [hp]
  decide

/-- Witness for claim C9 at a concrete video payload. -/
theorem load_always_playing_witness :
    viewState (loadMediaInPlayer ⟨"a.mp4", "data", "video"⟩).1 = PlaybackState.Playing ∧
    viewState (loadMediaInPlayer ⟨"a.mp4", "data", "video"⟩).1 ≠ PlaybackState.Loaded :=
  load_always_playing ⟨"a.mp4", "data", "video"⟩ (Or.inl rfl)

/-- Claim C6: on a failed start-server result the controller leaves the
whole hosting state unchanged and emits one error notification and an
error log entry carrying the recovered message. -/
theorem startServer_err_state_unchanged (portInput dirInput : String)
    (o : BackendOutcome) (st : AppState)
    (hp : portInput ≠ "")
    (hd : stripQuotes (jsTrimStr dirInput) ≠ "")
    (hv : isValidDirectoryPath (stripQuotes (jsTrimStr dirInput)) = true)
    (hr : resultSuccess (callRustCommand o) = false) :
    (startServer portInput dirInput o st).1.serverRunning = st.serverRunning ∧
    (startServer portInput dirInput o st).1.loadedFiles = st.loadedFiles ∧
    (startServer portInput dirInput o st).1.connectedClients = st.connectedClients ∧
    (startServer portInput dirInput o st).1.notifications =
      st.notifications ++
        [⟨"Failed to start server: " ++
            errMsgStr (callRustCommand o) ("Failed to start server"), Severity.error⟩] ∧
    (startServer portInput dirInput o st).1.log.getLast? =
      some ⟨"Failed to start server: " ++
        errMsgStr (callRustCommand o) ("Failed to start server"), Severity.error⟩ := by
  refine ⟨?_, ?_, ?_, ?_, ?_⟩ <;>
    simp [startServer, logMessage, showNotification, hp, hd, hv, hr, List.getLast?_concat]

/-- Witness for claim C6: a concrete failed start from the initial
state. -/
theorem startServer_err_state_unchanged_witness :
    (startServer "8080" "./media" (.netFail "boom") initialState).1.serverRunning =
      initialState.serverRunning ∧
    (startServer "8080" "./media" (.netFail "boom") initialState).1.loadedFiles =
      initialState.loadedFiles ∧
    (startServer "8080" "./media" (.netFail "boom") initialState).1.connectedClients =
      initialState.connectedClients ∧
    (startServer "8080" "./media" (.netFail "boom") initialState).1.notifications =
      initialState.notifications ++
        [⟨"Failed to start server: " ++
            errMsgStr (callRustCommand (.netFail "boom")) ("Failed to start server"),
          Severity.error⟩] ∧
    (startServer "8080" "./media" (.netFail "boom") initialState).1.log.getLast? =
      some ⟨"Failed to start server: " ++
        errMsgStr (callRustCommand (.netFail "boom")) ("Failed to start server"),
        Severity.error⟩ :=
  startServer_err_state_unchanged "8080" "./media" (.netFail "boom") initialState
    (by decide) (by decide) (by decide) (by decide)

/-- Claim C7: when the port is missing, the cleaned directory is empty
or the path validator rejects it, startServer issues no command, leaves
the hosting state unchanged, and emits an error notification and an
error log entry. -/
theorem startServer_validation_blocks (portInput dirInput : String)
    (o : BackendOutcome) (st : AppState)
    (h : portInput = "" ∨ stripQuotes (jsTrimStr dirInput) = "" ∨
      isValidDirectoryPath (stripQuotes (jsTrimStr dirInput)) = false) :
    (startServer portInput dirInput o st).2 = none ∧
    (startServer portInput dirInput o st).1.serverRunning = st.serverRunning ∧
    (startServer portInput dirInput o st).1.loadedFiles = st.loadedFiles ∧
    (startServer portInput dirInput o st).1.connectedClients = st.connectedClients ∧
    (∃ m, (startServer portInput dirInput o st).1.notifications =
      st.notifications ++ [⟨m, Severity.error⟩]) ∧
    (∃ pre post m, (startServer portInput dirInput o st).1.log =
      st.log ++ pre ++ ⟨m, Severity.error⟩ :: post) := by
  by_cases hp : portInput = ""
  · refine ⟨?_, ?_, ?_, ?_, ⟨"Please enter a port number", ?_⟩,
      ⟨[⟨"Raw directory input: \"" ++ dirInput ++ "\"", Severity.info⟩,
        ⟨"Cleaned directory: \"" ++ stripQuotes (jsTrimStr dirInput) ++ "\"", Severity.info⟩,
        ⟨"Directory length: " ++ toString (stripQuotes (jsTrimStr dirInput)).length,
          Severity.info⟩],
        [], "Missing port number", ?_⟩⟩ <;>
      simp [startServer, logMessage, showNotification, hp]
  · by_cases hd : stripQuotes (jsTrimStr dirInput) = ""
    · refine ⟨?_, ?_, ?_, ?_, ⟨"Please enter a directory path or select files", ?_⟩,
        ⟨[⟨"Raw directory input: \"" ++ dirInput ++ "\"", Severity.info⟩,
          ⟨"Cleaned directory: \"" ++ stripQuotes (jsTrimStr dirInput) ++ "\"", Severity.info⟩,
          ⟨"Directory length: " ++ toString (stripQuotes (jsTrimStr dirInput)).length,
            Severity.info⟩],
          [], "Missing directory path", ?_⟩⟩ <;>
        simp [startServer, logMessage, showNotification, hp, hd]
    · have hv : isValidDirectoryPath (stripQuotes (jsTrimStr dirInput)) = false := by
        rcases h with h | h | h
        · exact absurd h hp
        · exact absurd h hd
        · exact h
      refine ⟨?_, ?_, ?_, ?_,
        ⟨"Please enter a valid directory path (e.g., f:\\software\\test_media)", ?_⟩,
        ⟨[⟨"Raw directory input: \"" ++ dirInput ++ "\"", Severity.info⟩,
          ⟨"Cleaned directory: \"" ++ stripQuotes (jsTrimStr dirInput) ++ "\"", Severity.info⟩,
          ⟨"Directory length: " ++ toString (stripQuotes (jsTrimStr dirInput)).length,
            Severity.info⟩],
          [⟨"Use \"Use Test Media\" button or enter a full path manually", Severity.info⟩],
          "Invalid directory path: " ++ stripQuotes (jsTrimStr dirInput), ?_⟩⟩ <;>
        simp [startServer, logMessage, showNotification, hp, hd, hv]

/-- Witness for claim C7: a missing port blocks the request and touches
none of the hosting state. -/
theorem startServer_validation_blocks_witness :
    (startServer "" "./media" (.netFail "x") initialState).2 = none ∧
    (startServer "" "./media" (.netFail "x") initialState).1.serverRunning =
      initialState.serverRunning ∧
    (startServer "" "./media" (.netFail "x") initialState).1.loadedFiles =
      initialState.loadedFiles ∧
    (startServer "" "./media" (.netFail "x") initialState).1.connectedClients =
      initialState.connectedClients :=
  have h := startServer_validation_blocks "" "./media" (.netFail "x") initialState (Or.inl rfl)
  ⟨h.1, h.2.1, h.2.2.1, h.2.2.2.1⟩

/-- Claim C8: on a successful stop-server result stopServer resets the
hosting substate in bulk, and a second successful stop from the reached
state lands in the same terminal hosting state, so a successful stop is
idempotent on the hosting state. -/
theorem stopServer_ok_clears (o : BackendOutcome) (st : AppState)
    (h : resultSuccess (callRustCommand o) = true) :
    (stopServer o st).1.serverRunning = false ∧
    (stopServer o st).1.loadedFiles = JVal.jList [] ∧
    (stopServer o st).1.connectedClients = JVal.jList [] ∧
    ∀ o2 : BackendOutcome, resultSuccess (callRustCommand o2) = true →
      hostingView (stopServer o2 (stopServer o st).1).1 =
        hostingView (stopServer o st).1 := by
  refine ⟨?_, ?_, ?_, ?_⟩
  · simp [stopServer, logMessage, showNotification, h]
  · simp [stopServer, logMessage, showNotification, h]
  · simp [stopServer, logMessage, showNotification, h]
  · intro o2 h2
    simp [stopServer, logMessage, showNotification, h, h2, hostingView]

/-- Witness for claim C8: a concrete successful stop from the initial
state, followed by a second concrete successful stop reaching the same
terminal hosting state. -/
theorem stopServer_ok_clears_witness :
    (stopServer (.reply 200 ⟨true, none, none⟩) initialState).1.serverRunning = false ∧
    (stopServer (.reply 200 ⟨true, none, none⟩) initialState).1.loadedFiles = JVal.jList [] ∧
    (stopServer (.reply 200 ⟨true, none, none⟩) initialState).1.connectedClients =
      JVal.jList [] ∧
    hostingView (stopServer (.reply 201 ⟨true, some [], none⟩)
        (stopServer (.reply 200 ⟨true, none, none⟩) initialState).1).1 =
      hostingView (stopServer (.reply 200 ⟨true, none, none⟩) initialState).1 :=
  have h := stopServer_ok_clears (.reply 200 ⟨true, none, none⟩) initialState (by decide)
  ⟨h.1, h.2.1, h.2.2.1, h.2.2.2 (.reply 201 ⟨true, some [], none⟩) (by decide)⟩

end MediaSync
